import Mathlib

/-!
Verification of `cvatjs/src/api-implementation.js`.

The file wires implementations onto pre-declared API objects: a generic
filter validator (`checkFilter`), three getters delegating to a server
proxy (`cvat.users.get`, `cvat.jobs.get`, `cvat.tasks.get`), a context
wrapper (`setupEnv`) and a collection of stub handlers.

Modelling choices:
* JavaScript primitive values are the inductive `JSValue`; a JS filter
  object is an association list of own properties in insertion order.
* The unseen modules (`server-proxy`, the `window.cvat.classes` and
  `window.cvat.enums` definitions, `hidden`) are abstracted into an
  environment `Env` of opaque response data and class constructors.
* Server-proxy delegation is made observable as a trace of `ProxyCall`s:
  every implementation returns the list of proxy calls it performed
  together with its `Except` result (a thrown `ArgumentError` /
  `ScriptingError` is an `Except.error`).
-/

set_option autoImplicit false

namespace CvatApi

/-- JavaScript primitive values as they occur in filter objects.
`vInt` is a number that satisfies `Number.isInteger`; `vNonIntNum` is any
other number, abstracted by its decimal string representation (no float
arithmetic happens in this file, and the enum tables of the repository
hold strings, so `NaN`-style equality quirks never arise). -/
inductive JSValue where
  | vBool (b : Bool)
  | vInt (n : Int)
  | vNonIntNum (r : String)
  | vStr (s : String)
  | vNull
  | vUndefined
  deriving DecidableEq, Repr

/-- `function isBoolean(value) { return typeof (value) === 'boolean'; }` -/
def isBoolean : JSValue → Bool
  | .vBool _ => true
  | _ => false

/-- `function isInteger(value) { return typeof (value) === 'number' && Number.isInteger(value); }` -/
def isInteger : JSValue → Bool
  | .vInt _ => true
  | _ => false

/-- `function isString(value) { return typeof (value) === 'string'; }` -/
def isString : JSValue → Bool
  | .vStr _ => true
  | _ => false

/-- `isEnum` with a bound enum object: it scans the enum's own property
values and succeeds iff one of them is strictly equal to `value`.  The
enum object itself (`window.cvat.enums.TaskStatus` / `TaskMode`) is not in
the sources, so it is abstracted to its list of own property values. -/
def isEnum (enumValues : List JSValue) (value : JSValue) : Bool :=
  enumValues.contains value

/-- JavaScript truthiness of a `JSValue` (used by `filter.self` and
`filter.jobID ? _ : _` tests). -/
def truthy : JSValue → Bool
  | .vBool b => b
  | .vInt n => n != 0
  | .vNonIntNum _ => true
  | .vStr s => s != ""
  | .vNull => false
  | .vUndefined => false

/-- A JS filter object: its own enumerable properties in insertion order.
JS objects never repeat a key; `FilterWF` records that. -/
abbrev Filter : Type := List (String × JSValue)

/-- Own-property keys of a JS object are pairwise distinct. -/
def FilterWF (f : Filter) : Prop := (f.map Prod.fst).Nodup

/-- `Object.prototype.hasOwnProperty.call(filter, k)` (also `k in filter`
for the plain filter objects used here). -/
def hasProp (f : Filter) (k : String) : Bool :=
  f.any (fun p => p.1 == k)

/-- Property read `filter[k]`: the value stored at `k`, `undefined` when
the property is absent. -/
def getProp (f : Filter) (k : String) : JSValue :=
  match f.find? (fun p => p.1 == k) with
  | some p => p.2
  | none => .vUndefined

/-- The two exception classes thrown by this file:
`window.cvat.exceptions.ArgumentError` and
`window.cvat.exceptions.ScriptingError`. -/
inductive CVATError where
  | argumentError (msg : String)
  | scriptingError (msg : String)
  deriving DecidableEq, Repr

/-- A checker table (the `fields` argument of `checkFilter`): an object
literal mapping a field name to its checker predicate. -/
abbrev FieldTable : Type := List (String × (JSValue → Bool))

/-- `fields[prop]` lookup in a checker table (`prop in fields` succeeds
iff this is `some`). -/
def findField (fields : FieldTable) (k : String) : Option (JSValue → Bool) :=
  match fields.find? (fun p => p.1 == k) with
  | some p => some p.2
  | none => none

/-- `checkFilter(filter, fields)`: scans the filter's own properties in
order; an unknown property or a failing checker throws an
`ArgumentError`, otherwise the function returns. -/
def checkFilter (filter : Filter) (fields : FieldTable) : Except CVATError Unit :=
  match filter with
  | [] => .ok ()
  | (prop, value) :: rest =>
    match findField fields prop with
    | none => .error (.argumentError s!"Unsupported filter property has been recieved: \"{prop}\"")
    | some checker =>
      if checker value then checkFilter rest fields
      else .error (.argumentError s!"Received filter property {prop} was not satisfied for checker")

/-- One filter entry passes the table: its key is registered and the
registered checker accepts its value. -/
def entryOk (fields : FieldTable) (p : String × JSValue) : Bool :=
  match findField fields p.1 with
  | some checker => checker p.2
  | none => false

theorem checkFilter_nil (fields : FieldTable) : checkFilter [] fields = .ok () := rfl

theorem checkFilter_cons (prop : String) (value : JSValue) (rest : Filter)
    (fields : FieldTable) :
    checkFilter ((prop, value) :: rest) fields =
      match findField fields prop with
      | none => .error (.argumentError s!"Unsupported filter property has been recieved: \"{prop}\"")
      | some checker =>
        if checker value then checkFilter rest fields
        else .error (.argumentError s!"Received filter property {prop} was not satisfied for checker") := rfl

theorem checkFilter_ok_of_all (filter : Filter) (fields : FieldTable)
    (h : ∀ p ∈ filter, entryOk fields p = true) :
    checkFilter filter fields = .ok () := by
  induction filter with
  | nil => rfl
  | cons p rest ih =>
    obtain ⟨prop, value⟩ := p
    have hp := h (prop, value) (List.mem_cons_self _ _)
    unfold entryOk at hp
    rw [checkFilter_cons]
    cases hfind : findField fields prop with
    | none => rw [hfind] at hp; exact absurd hp (by simp)
    | some checker =>
      rw [hfind] at hp
      simp only
      rw [if_pos hp]
      exact ih (fun q hq => h q (List.mem_cons_of_mem _ hq))

theorem checkFilter_error_of_bad (filter : Filter) (fields : FieldTable)
    (h : ∃ p ∈ filter, entryOk fields p = false) :
    ∃ msg, checkFilter filter fields = .error (.argumentError msg) := by
  induction filter with
  | nil => simp at h
  | cons p rest ih =>
    obtain ⟨prop, value⟩ := p
    rw [checkFilter_cons]
    cases hfind : findField fields prop with
    | none => exact ⟨_, rfl⟩
    | some checker =>
      simp only
      by_cases hc : checker value = true
      · rw [if_pos hc]
        apply ih
        rcases h with ⟨q, hq, hbad⟩
        rcases List.mem_cons.mp hq with rfl | hmem
        · exfalso
          unfold entryOk at hbad
          rw [hfind] at hbad
          simp only [hc] at hbad
          exact Bool.noConfusion hbad
        · exact ⟨q, hmem, hbad⟩
      · rw [if_neg hc]
        exact ⟨_, rfl⟩

/-- Every error produced by `checkFilter` is an `ArgumentError`. -/
theorem checkFilter_error_shape (filter : Filter) (fields : FieldTable) (e : CVATError)
    (h : checkFilter filter fields = .error e) :
    ∃ msg, e = .argumentError msg := by
  induction filter with
  | nil => simp [checkFilter_nil] at h
  | cons p rest ih =>
    obtain ⟨prop, value⟩ := p
    rw [checkFilter_cons] at h
    cases hfind : findField fields prop with
    | none =>
      rw [hfind] at h
      exact ⟨_, (Except.error.inj h).symm⟩
    | some checker =>
      rw [hfind] at h
      simp only at h
      by_cases hc : checker value = true
      · rw [if_pos hc] at h; exact ih h
      · rw [if_neg hc] at h
        exact ⟨_, (Except.error.inj h).symm⟩

/-- C1: `checkFilter` raises an `ArgumentError` iff some own property of
the filter is unregistered in the checker table or fails its checker;
when every own property is registered and its checker accepts, it
returns without error. -/
theorem checkFilter_spec (filter : Filter) (fields : FieldTable) :
    ((∀ p ∈ filter, entryOk fields p = true) → checkFilter filter fields = .ok ())
    ∧ ((∃ p ∈ filter, entryOk fields p = false) →
        ∃ msg, checkFilter filter fields = .error (.argumentError msg)) :=
  ⟨checkFilter_ok_of_all filter fields, checkFilter_error_of_bad filter fields⟩

/-- The checker table of `cvat.users.get`. -/
def usersFields : FieldTable := [("self", isBoolean)]

theorem checkFilter_spec_witness :
    checkFilter [("self", JSValue.vBool true)] usersFields = .ok ()
    ∧ ∃ msg, checkFilter [("bogus", JSValue.vInt 1)] usersFields
        = .error (.argumentError msg) :=
  ⟨(checkFilter_spec [("self", JSValue.vBool true)] usersFields).1 (by decide),
   (checkFilter_spec [("bogus", JSValue.vInt 1)] usersFields).2 (by decide)⟩

/-! ### The environment: server proxy, classes and enums

The modules `server-proxy`, `plugins` and the `window.cvat.classes` /
`window.cvat.enums` definitions are not part of the sources; they are
abstracted into opaque payloads, abstract class constructors and abstract
enum value lists. -/

/-- An opaque user payload returned by the server proxy. -/
structure UserPayload where
  raw : Nat
  deriving DecidableEq, Repr

/-- An opaque task payload returned by the server proxy. -/
structure TaskPayload where
  raw : Nat
  deriving DecidableEq, Repr

/-- A `serverProxy.jobs.getJob` response; only its `task_id` field is read. -/
structure JobPayload where
  task_id : Int
  deriving DecidableEq, Repr

/-- A `window.cvat.classes.User` instance (opaque). -/
structure UserObj where
  raw : Nat
  deriving DecidableEq, Repr

/-- A `window.cvat.classes.Job` instance as visible in this file: only its
`id` property is read. -/
structure JobObj where
  id : Int
  deriving DecidableEq, Repr

/-- A `window.cvat.classes.Task` instance as visible in this file: only its
`jobs` property is read. -/
structure TaskObj where
  jobs : List JobObj
  raw : Nat
  deriving DecidableEq, Repr

/-- Possible arguments of `new window.cvat.classes.Task(x)` in this file:
a raw server payload (in `tasks.get`), an already-wrapped task object, or
`undefined` when `task[0]` indexes an empty list (in `jobs.get`). -/
inductive TaskInput where
  | raw (p : TaskPayload)
  | obj (t : TaskObj)
  | undef
  deriving DecidableEq, Repr

/-- One delegation to the server proxy, with the argument it received. -/
inductive ProxyCall where
  | getSelf
  | getUsers
  | getJob (jid : JSValue)
  | getTasks (query : String)
  deriving DecidableEq, Repr

/-- The unseen surroundings: server responses, class constructors and the
two task enums. -/
structure Env where
  selfUser : UserPayload
  allUsers : List UserPayload
  getJob : JSValue → JobPayload
  getTasks : String → List TaskPayload
  UserC : UserPayload → UserObj
  TaskC : TaskInput → TaskObj
  statusValues : List JSValue
  modeValues : List JSValue

/-! ### `URLSearchParams` -/

/-- Uppercase hexadecimal digit of `n < 16`. -/
def hexDigit (n : Nat) : Char :=
  if n < 10 then Char.ofNat (48 + n) else Char.ofNat (55 + n)

/-- UTF-8 bytes of a character (as `Nat`s below 256). -/
def utf8Bytes (c : Char) : List Nat :=
  let n := c.toNat
  if n < 128 then [n]
  else if n < 2048 then [192 + n / 64, 128 + n % 64]
  else if n < 65536 then [224 + n / 4096, 128 + (n / 64) % 64, 128 + n % 64]
  else [240 + n / 262144, 128 + (n / 4096) % 64, 128 + (n / 64) % 64, 128 + n % 64]

/-- Bytes serialized verbatim by `application/x-www-form-urlencoded`. -/
def formUnreserved (n : Nat) : Bool :=
  (48 ≤ n && n ≤ 57) || (65 ≤ n && n ≤ 90) || (97 ≤ n && n ≤ 122)
    || n == 42 || n == 45 || n == 46 || n == 95

/-- Form-urlencoded serialization of one byte. -/
def encodeByte (n : Nat) : String :=
  if n == 32 then "+"
  else if formUnreserved n then String.singleton (Char.ofNat n)
  else String.mk ['%', hexDigit (n / 16), hexDigit (n % 16)]

/-- Form-urlencoded serialization of a string (as `URLSearchParams` does). -/
def urlencode (s : String) : String :=
  String.join (s.data.map (fun c => String.join ((utf8Bytes c).map encodeByte)))

/-- A `URLSearchParams` object: its name/value pairs in order. -/
abbrev SearchParams : Type := List (String × String)

/-- `URLSearchParams.set(k, v)`: replace the first entry named `k` in
place (dropping later duplicates), or append a new entry. -/
def setParam : SearchParams → String → String → SearchParams
  | [], k, v => [(k, v)]
  | p :: rest, k, v =>
    if p.1 == k then (k, v) :: rest.filter (fun q => !(q.1 == k))
    else p :: setParam rest k v

/-- `URLSearchParams.toString()`. -/
def paramsToString (ps : SearchParams) : String :=
  String.intercalate "&" (ps.map (fun p => urlencode p.1 ++ "=" ++ urlencode p.2))

/-- JS string conversion, applied by `URLSearchParams.set` to its value
argument.  A non-integer number is abstracted by its string
representation. -/
def jsToString : JSValue → String
  | .vBool b => if b then "true" else "false"
  | .vInt n => toString n
  | .vNonIntNum r => r
  | .vStr s => s
  | .vNull => "null"
  | .vUndefined => "undefined"

/-! ### The three implemented getters -/

/-- The checker table of `cvat.tasks.get`. -/
def tasksFields (env : Env) : FieldTable :=
  [("name", isString), ("id", isInteger), ("owner", isString), ("assignee", isString),
   ("search", isString), ("status", isEnum env.statusValues), ("mode", isEnum env.modeValues)]

/-- The checker table of `cvat.jobs.get`. -/
def jobsFields : FieldTable := [("taskID", isInteger), ("jobID", isInteger)]

/-- The seven recognized task filter fields, in the order the source
iterates them when building the query string. -/
def taskQueryFields : List String :=
  ["name", "owner", "assignee", "search", "status", "mode", "id"]

/-- The `URLSearchParams` built by `cvat.tasks.get` from a filter. -/
def buildTaskParams (filter : Filter) : SearchParams :=
  taskQueryFields.foldl
    (fun ps field =>
      if hasProp filter field then setParam ps field (jsToString (getProp filter field)) else ps)
    []

/-- `cvat.tasks.get.implementation`.  `filter.length` is
`Object.keys(filter).length` (own keys of a JS object are distinct). -/
def tasksGet (env : Env) (filter : Filter) :
    List ProxyCall × Except CVATError (List TaskObj) :=
  match checkFilter filter (tasksFields env) with
  | .error e => ([], .error e)
  | .ok _ =>
    if hasProp filter "search" && decide (1 < filter.length) then
      ([], .error (.argumentError "Do not use the filter field \"search\" with others"))
    else if hasProp filter "id" && decide (1 < filter.length) then
      ([], .error (.argumentError "Do not use the filter field \"id\" with others"))
    else
      let query := paramsToString (buildTaskParams filter)
      ([.getTasks query], .ok ((env.getTasks query).map (fun t => env.TaskC (.raw t))))

/-- The part of `cvat.jobs.get.implementation` after its three checks:
fetch the task (directly by `taskID`, or through `getJob` by `jobID`),
wrap `task[0]` in `new Task(...)`, and return `filter.jobID ?
task.jobs.filter(job => job.id === filter.jobID) : task.jobs`. -/
def jobsGetValidated (env : Env) (filter : Filter) :
    List ProxyCall × Except CVATError (List JobObj) :=
  let fetched :=
    if hasProp filter "taskID" then
      tasksGet env [("id", getProp filter "taskID")]
    else
      let job := env.getJob (getProp filter "jobID")
      let inner := tasksGet env [("id", .vInt job.task_id)]
      (ProxyCall.getJob (getProp filter "jobID") :: inner.1, inner.2)
  match fetched with
  | (trace, .error e) => (trace, .error e)
  | (trace, .ok taskList) =>
    let task := env.TaskC (match taskList.head? with
      | some t => .obj t
      | none => .undef)
    (trace,
     .ok (if truthy (getProp filter "jobID") then
            task.jobs.filter (fun job => JSValue.vInt job.id == getProp filter "jobID")
          else task.jobs))

/-- `cvat.jobs.get.implementation`. -/
def jobsGet (env : Env) (filter : Filter) :
    List ProxyCall × Except CVATError (List JobObj) :=
  match checkFilter filter jobsFields with
  | .error e => ([], .error e)
  | .ok _ =>
    if hasProp filter "taskID" && hasProp filter "jobID" then
      ([], .error (.argumentError "Only one of fields \"taskID\" and \"jobID\" allowed simultaneously"))
    else if filter.length == 0 then
      ([], .error (.argumentError "Job filter must not be empty"))
    else
      jobsGetValidated env filter

/-- `cvat.users.get.implementation`. -/
def usersGet (env : Env) (filter : Filter) :
    List ProxyCall × Except CVATError (List UserObj) :=
  match checkFilter filter usersFields with
  | .error e => ([], .error e)
  | .ok _ =>
    if hasProp filter "self" && truthy (getProp filter "self") then
      ([.getSelf], .ok [env.UserC env.selfUser])
    else
      ([.getUsers], .ok (env.allUsers.map env.UserC))

/-! ### Helper lemmas -/

theorem isInteger_vInt (v : JSValue) (h : isInteger v = true) : ∃ n, v = .vInt n := by
  cases v <;> simp [isInteger] at h ⊢

theorem isBoolean_vBool (v : JSValue) (h : isBoolean v = true) : ∃ b, v = .vBool b := by
  cases v <;> simp [isBoolean] at h ⊢

theorem checkFilter_all_of_ok (filter : Filter) (fields : FieldTable)
    (h : checkFilter filter fields = .ok ()) :
    ∀ p ∈ filter, entryOk fields p = true := by
  induction filter with
  | nil => intro p hp; simp at hp
  | cons q rest ih =>
    obtain ⟨prop, value⟩ := q
    rw [checkFilter_cons] at h
    cases hfind : findField fields prop with
    | none => rw [hfind] at h; exact absurd h (by simp)
    | some checker =>
      rw [hfind] at h
      simp only at h
      by_cases hc : checker value = true
      · rw [if_pos hc] at h
        intro p hp
        rcases List.mem_cons.mp hp with rfl | hmem
        · unfold entryOk; rw [hfind]; exact hc
        · exact ih h p hmem
      · rw [if_neg hc] at h; exact absurd h (by simp)

theorem checkFilter_ok_getProp (filter : Filter) (fields : FieldTable) (k : String)
    (c : JSValue → Bool) (hok : checkFilter filter fields = .ok ())
    (hk : hasProp filter k = true) (hfind : findField fields k = some c) :
    c (getProp filter k) = true := by
  have hsome : (filter.find? (fun p => p.1 == k)).isSome := by
    rw [List.find?_isSome]
    rcases List.any_eq_true.mp hk with ⟨p, hp, hpk⟩
    exact ⟨p, hp, hpk⟩
  cases hfp : filter.find? (fun p => p.1 == k) with
  | none => rw [hfp] at hsome; simp at hsome
  | some p =>
    have hmem := List.mem_of_find?_eq_some hfp
    have hpk' : p.1 = k := by
      have h' := List.find?_some hfp
      simpa using h'
    have hentry := checkFilter_all_of_ok filter fields hok p hmem
    unfold entryOk at hentry
    rw [hpk', hfind] at hentry
    have : getProp filter k = p.2 := by unfold getProp; rw [hfp]
    rw [this]
    exact hentry

theorem one_lt_length_of_two_keys (filter : Filter) (k₁ k₂ : String) (hne : k₁ ≠ k₂)
    (h₁ : hasProp filter k₁ = true) (h₂ : hasProp filter k₂ = true) :
    1 < filter.length := by
  rcases List.any_eq_true.mp h₁ with ⟨p₁, hp₁, hpk₁⟩
  rcases List.any_eq_true.mp h₂ with ⟨p₂, hp₂, hpk₂⟩
  have hk₁ : p₁.1 = k₁ := beq_iff_eq.mp hpk₁
  have hk₂ : p₂.1 = k₂ := beq_iff_eq.mp hpk₂
  match filter, hp₁, hp₂ with
  | [], hp₁, _ => exact absurd hp₁ (by simp)
  | [a], hp₁, hp₂ =>
    exfalso
    have e₁ : p₁ = a := by simpa using hp₁
    have e₂ : p₂ = a := by simpa using hp₂
    exact hne (by rw [← hk₁, ← hk₂, e₁, e₂])
  | _ :: _ :: _, _, _ => simp only [List.length]; omega

theorem setParam_not_mem (ps : SearchParams) (k v : String)
    (h : ∀ p ∈ ps, (p.1 == k) = false) :
    setParam ps k v = ps ++ [(k, v)] := by
  induction ps with
  | nil => rfl
  | cons p rest ih =>
    unfold setParam
    rw [h p (List.mem_cons_self _ _)]
    simp only [Bool.false_eq_true, if_false]
    rw [ih (fun q hq => h q (List.mem_cons_of_mem _ hq))]
    rfl

theorem foldl_setParam_eq (filter : Filter) (fields : List String) (acc : SearchParams)
    (hnd : fields.Nodup)
    (hacc : ∀ f ∈ fields, ∀ p ∈ acc, (p.1 == f) = false) :
    fields.foldl (fun ps field =>
        if hasProp filter field then setParam ps field (jsToString (getProp filter field)) else ps)
      acc
      = acc ++ (fields.filter (fun f => hasProp filter f)).map
          (fun f => (f, jsToString (getProp filter f))) := by
  induction fields generalizing acc with
  | nil => simp
  | cons g rest ih =>
    have hg : ∀ p ∈ acc, (p.1 == g) = false := hacc g (List.mem_cons_self _ _)
    have hnd' : rest.Nodup := hnd.of_cons
    have hgrest : g ∉ rest := by
      intro hmem
      exact (List.nodup_cons.mp hnd).1 hmem
    rw [List.foldl_cons]
    cases hgp : hasProp filter g with
    | false =>
      simp only [hgp, Bool.false_eq_true, if_false]
      rw [ih acc hnd' (fun f hf p hp => hacc f (List.mem_cons_of_mem _ hf) p hp)]
      simp [List.filter_cons, hgp]
    | true =>
      simp only [hgp, if_true]
      rw [setParam_not_mem acc g _ hg]
      have hinv : ∀ f ∈ rest, ∀ p ∈ acc ++ [(g, jsToString (getProp filter g))],
          (p.1 == f) = false := by
        intro f hf p hp
        rcases List.mem_append.mp hp with hpacc | hpg
        · exact hacc f (List.mem_cons_of_mem _ hf) p hpacc
        · have hp' : p = (g, jsToString (getProp filter g)) := by simpa using hpg
          rw [hp']
          show (g == f) = false
          exact beq_eq_false_iff_ne.mpr (fun hgf => hgrest (hgf ▸ hf))
      rw [ih (acc ++ [(g, jsToString (getProp filter g))]) hnd' hinv]
      simp [List.filter_cons, hgp]

/-- The query pairs C6 describes: exactly the recognized fields present in
the filter, in the source's order, each with the filter's value. -/
def specTaskQueryPairs (filter : Filter) : SearchParams :=
  (taskQueryFields.filter (fun f => hasProp filter f)).map
    (fun f => (f, jsToString (getProp filter f)))

theorem buildTaskParams_eq_spec (filter : Filter) :
    buildTaskParams filter = specTaskQueryPairs filter := by
  unfold buildTaskParams specTaskQueryPairs
  rw [foldl_setParam_eq filter taskQueryFields [] (by decide)
    (fun f _ p hp => absurd hp (by simp))]
  rfl

/-! ### Unfolding lemmas for the getters -/

theorem usersGet_checkFilter_error (env : Env) (filter : Filter) (e : CVATError)
    (h : checkFilter filter usersFields = .error e) :
    usersGet env filter = ([], .error e) := by
  unfold usersGet; rw [h]

theorem jobsGet_checkFilter_error (env : Env) (filter : Filter) (e : CVATError)
    (h : checkFilter filter jobsFields = .error e) :
    jobsGet env filter = ([], .error e) := by
  unfold jobsGet; rw [h]

theorem tasksGet_checkFilter_error (env : Env) (filter : Filter) (e : CVATError)
    (h : checkFilter filter (tasksFields env) = .error e) :
    tasksGet env filter = ([], .error e) := by
  unfold tasksGet; rw [h]

theorem usersGet_checkFilter_ok (env : Env) (filter : Filter)
    (h : checkFilter filter usersFields = .ok ()) :
    usersGet env filter =
      if hasProp filter "self" && truthy (getProp filter "self") then
        ([.getSelf], .ok [env.UserC env.selfUser])
      else ([.getUsers], .ok (env.allUsers.map env.UserC)) := by
  unfold usersGet; rw [h]

theorem jobsGet_checkFilter_ok (env : Env) (filter : Filter)
    (h : checkFilter filter jobsFields = .ok ()) :
    jobsGet env filter =
      if hasProp filter "taskID" && hasProp filter "jobID" then
        ([], .error (.argumentError "Only one of fields \"taskID\" and \"jobID\" allowed simultaneously"))
      else if filter.length == 0 then
        ([], .error (.argumentError "Job filter must not be empty"))
      else jobsGetValidated env filter := by
  unfold jobsGet; rw [h]

theorem tasksGet_checkFilter_ok (env : Env) (filter : Filter)
    (h : checkFilter filter (tasksFields env) = .ok ()) :
    tasksGet env filter =
      if hasProp filter "search" && decide (1 < filter.length) then
        ([], .error (.argumentError "Do not use the filter field \"search\" with others"))
      else if hasProp filter "id" && decide (1 < filter.length) then
        ([], .error (.argumentError "Do not use the filter field \"id\" with others"))
      else
        ([.getTasks (paramsToString (buildTaskParams filter))],
         .ok ((env.getTasks (paramsToString (buildTaskParams filter))).map
           (fun t => env.TaskC (.raw t)))) := by
  unfold tasksGet; rw [h]

theorem tasksGet_id_int (env : Env) (m : Int) :
    tasksGet env [("id", .vInt m)] =
      ([.getTasks (paramsToString (buildTaskParams [("id", JSValue.vInt m)]))],
       .ok ((env.getTasks (paramsToString (buildTaskParams [("id", JSValue.vInt m)]))).map
         (fun t => env.TaskC (.raw t)))) := rfl

theorem jobsGetValidated_ok (env : Env) (filter : Filter)
    (hT : hasProp filter "taskID" = true → isInteger (getProp filter "taskID") = true) :
    ∃ jobs, (jobsGetValidated env filter).2 = .ok jobs := by
  unfold jobsGetValidated
  cases hTp : hasProp filter "taskID" with
  | true =>
    obtain ⟨m, hm⟩ := isInteger_vInt _ (hT hTp)
    simp only [hTp, if_true, hm, tasksGet_id_int]
    exact ⟨_, rfl⟩
  | false =>
    simp only [hTp, Bool.false_eq_true, if_false, tasksGet_id_int]
    exact ⟨_, rfl⟩

/-- A small concrete environment used to instantiate the theorems. -/
def envW : Env where
  selfUser := ⟨7⟩
  allUsers := [⟨1⟩, ⟨2⟩]
  getJob := fun _ => ⟨5⟩
  getTasks := fun _ => [⟨10⟩, ⟨11⟩]
  UserC := fun p => ⟨p.raw⟩
  TaskC := fun _ => ⟨[⟨1⟩, ⟨2⟩, ⟨0⟩], 99⟩
  statusValues := [.vStr "annotation", .vStr "validation", .vStr "completed"]
  modeValues := [.vStr "annotation", .vStr "interpolation"]

/-! ### The claims about the getters -/

/-- C2: `cvat.tasks.get` raises an `ArgumentError` whenever its filter
contains `search` together with at least one other key, or `id` together
with at least one other key; with `search` alone, `id` alone or neither,
the cross-field checks pass and a validated filter leads to a successful
result. -/
theorem tasksGet_cross_field (env : Env) (filter : Filter) :
    ((hasProp filter "search" = true ∧ ∃ k, k ≠ "search" ∧ hasProp filter k = true) →
      ∃ msg, (tasksGet env filter).2 = .error (.argumentError msg))
    ∧ ((hasProp filter "id" = true ∧ ∃ k, k ≠ "id" ∧ hasProp filter k = true) →
      ∃ msg, (tasksGet env filter).2 = .error (.argumentError msg))
    ∧ (checkFilter filter (tasksFields env) = .ok () →
        (hasProp filter "search" = true → filter.length ≤ 1) →
        (hasProp filter "id" = true → filter.length ≤ 1) →
        ∃ tasks, (tasksGet env filter).2 = .ok tasks) := by
  refine ⟨?_, ?_, ?_⟩
  · rintro ⟨hs, k, hk, hkp⟩
    cases hcf : checkFilter filter (tasksFields env) with
    | error e' =>
      obtain ⟨msg, hmsg⟩ := checkFilter_error_shape filter (tasksFields env) e' hcf
      exact ⟨msg, by rw [tasksGet_checkFilter_error env filter e' hcf, hmsg]⟩
    | ok u =>
      cases u
      have hlen : 1 < filter.length :=
        one_lt_length_of_two_keys filter "search" k (fun he => hk he.symm) hs hkp
      refine ⟨"Do not use the filter field \"search\" with others", ?_⟩
      rw [tasksGet_checkFilter_ok env filter hcf,
        if_pos (by rw [hs, decide_eq_true hlen]; rfl)]
  · rintro ⟨hid, k, hk, hkp⟩
    cases hcf : checkFilter filter (tasksFields env) with
    | error e' =>
      obtain ⟨msg, hmsg⟩ := checkFilter_error_shape filter (tasksFields env) e' hcf
      exact ⟨msg, by rw [tasksGet_checkFilter_error env filter e' hcf, hmsg]⟩
    | ok u =>
      cases u
      have hlen : 1 < filter.length :=
        one_lt_length_of_two_keys filter "id" k (fun he => hk he.symm) hid hkp
      rw [tasksGet_checkFilter_ok env filter hcf]
      by_cases h1 : (hasProp filter "search" && decide (1 < filter.length)) = true
      · exact ⟨"Do not use the filter field \"search\" with others", by rw [if_pos h1]⟩
      · refine ⟨"Do not use the filter field \"id\" with others", ?_⟩
        rw [if_neg h1, if_pos (by rw [hid, decide_eq_true hlen]; rfl)]
  · intro hcf hs hid
    have hc1 : (hasProp filter "search" && decide (1 < filter.length)) = false := by
      cases hsp : hasProp filter "search" with
      | false => rfl
      | true =>
        have := hs hsp
        simp only [Bool.true_and, decide_eq_false_iff_not]
        omega
    have hc2 : (hasProp filter "id" && decide (1 < filter.length)) = false := by
      cases hsp : hasProp filter "id" with
      | false => rfl
      | true =>
        have := hid hsp
        simp only [Bool.true_and, decide_eq_false_iff_not]
        omega
    rw [tasksGet_checkFilter_ok env filter hcf, if_neg (by simp [hc1]),
      if_neg (by simp [hc2])]
    exact ⟨_, rfl⟩

theorem tasksGet_cross_field_witness :
    (∃ msg, (tasksGet envW [("search", JSValue.vStr "x"), ("owner", JSValue.vStr "y")]).2
      = .error (.argumentError msg))
    ∧ (∃ msg, (tasksGet envW [("id", JSValue.vInt 1), ("owner", JSValue.vStr "y")]).2
      = .error (.argumentError msg))
    ∧ (∃ tasks, (tasksGet envW [("name", JSValue.vStr "z")]).2 = .ok tasks) :=
  ⟨(tasksGet_cross_field envW [("search", .vStr "x"), ("owner", .vStr "y")]).1
      ⟨rfl, "owner", by decide, rfl⟩,
   (tasksGet_cross_field envW [("id", .vInt 1), ("owner", .vStr "y")]).2.1
      ⟨rfl, "owner", by decide, rfl⟩,
   (tasksGet_cross_field envW [("name", .vStr "z")]).2.2 rfl
      (fun h => by decide) (fun h => by decide)⟩

/-- C3: `cvat.jobs.get` raises an `ArgumentError` when its filter has both
`taskID` and `jobID`, and when it has no keys at all; a filter with
exactly one of them (carrying an integer) passes these checks and the
call succeeds. -/
theorem jobsGet_validation (env : Env) (filter : Filter) (n : Int) :
    ((hasProp filter "taskID" = true ∧ hasProp filter "jobID" = true) →
      ∃ msg, (jobsGet env filter).2 = .error (.argumentError msg))
    ∧ (jobsGet env []).2 = .error (.argumentError "Job filter must not be empty")
    ∧ (∃ jobs, (jobsGet env [("taskID", .vInt n)]).2 = .ok jobs)
    ∧ (∃ jobs, (jobsGet env [("jobID", .vInt n)]).2 = .ok jobs) := by
  refine ⟨?_, rfl, ⟨_, rfl⟩, ⟨_, rfl⟩⟩
  rintro ⟨h1, h2⟩
  cases hcf : checkFilter filter jobsFields with
  | error e' =>
    obtain ⟨msg, hmsg⟩ := checkFilter_error_shape filter jobsFields e' hcf
    exact ⟨msg, by rw [jobsGet_checkFilter_error env filter e' hcf, hmsg]⟩
  | ok u =>
    cases u
    refine ⟨"Only one of fields \"taskID\" and \"jobID\" allowed simultaneously", ?_⟩
    rw [jobsGet_checkFilter_ok env filter hcf, if_pos (by rw [h1, h2]; rfl)]

theorem jobsGet_validation_witness :
    ∃ msg, (jobsGet envW [("taskID", JSValue.vInt 1), ("jobID", JSValue.vInt 2)]).2
      = .error (.argumentError msg) :=
  (jobsGet_validation envW [("taskID", .vInt 1), ("jobID", .vInt 2)] 0).1 ⟨rfl, rfl⟩

/-- C6: for a filter that passes validation, `cvat.tasks.get` performs
exactly one proxy call, `getTasks` with the query string serializing
exactly the recognized fields present in the filter with the filter's
values (an empty filter yields the empty query string), and returns the
proxy's list wrapped elementwise in `Task` objects. -/
theorem tasksGet_query (env : Env) (filter : Filter)
    (hcf : checkFilter filter (tasksFields env) = .ok ())
    (hs : hasProp filter "search" = true → filter.length ≤ 1)
    (hid : hasProp filter "id" = true → filter.length ≤ 1) :
    tasksGet env filter =
      ([.getTasks (paramsToString (specTaskQueryPairs filter))],
       .ok ((env.getTasks (paramsToString (specTaskQueryPairs filter))).map
         (fun t => env.TaskC (.raw t)))) := by
  have hc1 : (hasProp filter "search" && decide (1 < filter.length)) = false := by
    cases hsp : hasProp filter "search" with
    | false => rfl
    | true =>
      have := hs hsp
      simp only [Bool.true_and, decide_eq_false_iff_not]
      omega
  have hc2 : (hasProp filter "id" && decide (1 < filter.length)) = false := by
    cases hsp : hasProp filter "id" with
    | false => rfl
    | true =>
      have := hid hsp
      simp only [Bool.true_and, decide_eq_false_iff_not]
      omega
  rw [tasksGet_checkFilter_ok env filter hcf, if_neg (by simp [hc1]),
    if_neg (by simp [hc2]), buildTaskParams_eq_spec]

theorem tasksGet_query_witness :
    tasksGet envW [("owner", JSValue.vStr "admin")] =
      ([.getTasks (paramsToString (specTaskQueryPairs [("owner", JSValue.vStr "admin")]))],
       .ok ((envW.getTasks (paramsToString (specTaskQueryPairs [("owner", JSValue.vStr "admin")]))).map
         (fun t => envW.TaskC (.raw t)))) :=
  tasksGet_query envW [("owner", .vStr "admin")] rfl
    (fun h => by decide) (fun h => by decide)

/-- C7: with a validated filter, `cvat.users.get` returns the one-element
`getSelf` list exactly when the filter holds `self: true`; when `self` is
false or absent it returns the full `getUsers` list; in both cases the
elements are wrapped in `User` objects. -/
theorem usersGet_spec (env : Env) (filter : Filter)
    (hcf : checkFilter filter usersFields = .ok ()) :
    ((hasProp filter "self" = true ∧ getProp filter "self" = .vBool true) →
      usersGet env filter = ([.getSelf], .ok [env.UserC env.selfUser]))
    ∧ ((hasProp filter "self" = false ∨ getProp filter "self" = .vBool false) →
      usersGet env filter = ([.getUsers], .ok (env.allUsers.map env.UserC))) := by
  rw [usersGet_checkFilter_ok env filter hcf]
  constructor
  · rintro ⟨h1, h2⟩
    rw [if_pos (by rw [h1, h2]; rfl)]
  · rintro (h | h)
    · rw [if_neg (by simp [h])]
    · rw [if_neg (by simp [h, truthy])]

theorem usersGet_spec_witness :
    usersGet envW [("self", JSValue.vBool true)] = ([.getSelf], .ok [envW.UserC envW.selfUser])
    ∧ usersGet envW [("self", JSValue.vBool false)] =
        ([.getUsers], .ok (envW.allUsers.map envW.UserC)) :=
  ⟨(usersGet_spec envW [("self", .vBool true)] rfl).1 ⟨rfl, rfl⟩,
   (usersGet_spec envW [("self", .vBool false)] rfl).2 (Or.inr rfl)⟩

/-- The task object `cvat.jobs.get` builds in its `jobID` branch:
`new Task(task[0])` for the task list fetched through the job's
`task_id`. -/
def fetchedTaskByJobID (env : Env) (v : JSValue) : TaskObj :=
  env.TaskC (match ((env.getTasks (paramsToString (buildTaskParams
        [("id", .vInt (env.getJob v).task_id)]))).map (fun t => env.TaskC (.raw t))).head? with
    | some t => .obj t
    | none => .undef)

/-- C9: with filter `{jobID: 0}` the final `filter.jobID ? ... : ...` test
sees a falsy value, so filtering is skipped entirely and the whole `jobs`
list of the fetched task is returned, not only the jobs with id 0. -/
theorem jobsGet_jobID_zero (env : Env) :
    (jobsGet env [("jobID", .vInt 0)]).2 =
      .ok (fetchedTaskByJobID env (.vInt 0)).jobs := rfl

/-- C10: whenever one of the three getters raises an error from its
validation or cross-field checks, its proxy-call trace is empty: no
server call has been made. -/
theorem no_proxy_call_on_error (env : Env) (filter : Filter) (e : CVATError) :
    ((usersGet env filter).2 = .error e → (usersGet env filter).1 = [])
    ∧ ((jobsGet env filter).2 = .error e → (jobsGet env filter).1 = [])
    ∧ ((tasksGet env filter).2 = .error e → (tasksGet env filter).1 = []) := by
  refine ⟨?_, ?_, ?_⟩
  · intro h
    cases hcf : checkFilter filter usersFields with
    | error e' => rw [usersGet_checkFilter_error env filter e' hcf]
    | ok u =>
      cases u
      rw [usersGet_checkFilter_ok env filter hcf] at h
      by_cases hc : (hasProp filter "self" && truthy (getProp filter "self")) = true
      · rw [if_pos hc] at h; exact absurd h (by simp)
      · rw [if_neg hc] at h; exact absurd h (by simp)
  · intro h
    cases hcf : checkFilter filter jobsFields with
    | error e' => rw [jobsGet_checkFilter_error env filter e' hcf]
    | ok u =>
      cases u
      rw [jobsGet_checkFilter_ok env filter hcf] at h ⊢
      by_cases h1 : (hasProp filter "taskID" && hasProp filter "jobID") = true
      · rw [if_pos h1]
      · rw [if_neg h1] at h ⊢
        by_cases h2 : (filter.length == 0) = true
        · rw [if_pos h2]
        · rw [if_neg h2] at h
          have hT : hasProp filter "taskID" = true →
              isInteger (getProp filter "taskID") = true := fun hTp =>
            checkFilter_ok_getProp filter jobsFields "taskID" isInteger hcf hTp rfl
          obtain ⟨jobs, hjobs⟩ := jobsGetValidated_ok env filter hT
          rw [hjobs] at h
          exact absurd h (by simp)
  · intro h
    cases hcf : checkFilter filter (tasksFields env) with
    | error e' => rw [tasksGet_checkFilter_error env filter e' hcf]
    | ok u =>
      cases u
      rw [tasksGet_checkFilter_ok env filter hcf] at h ⊢
      by_cases h1 : (hasProp filter "search" && decide (1 < filter.length)) = true
      · rw [if_pos h1]
      · rw [if_neg h1] at h ⊢
        by_cases h2 : (hasProp filter "id" && decide (1 < filter.length)) = true
        · rw [if_pos h2]
        · rw [if_neg h2] at h
          exact absurd h (by simp)

theorem no_proxy_call_on_error_witness :
    (usersGet envW [("bogus", JSValue.vInt 1)]).1 = []
    ∧ (jobsGet envW [("bogus", JSValue.vInt 1)]).1 = []
    ∧ (tasksGet envW [("bogus", JSValue.vInt 1)]).1 = [] :=
  ⟨(no_proxy_call_on_error envW [("bogus", .vInt 1)]
      (.argumentError "Unsupported filter property has been recieved: \"bogus\"")).1 rfl,
   (no_proxy_call_on_error envW [("bogus", .vInt 1)]
      (.argumentError "Unsupported filter property has been recieved: \"bogus\"")).2.1 rfl,
   (no_proxy_call_on_error envW [("bogus", .vInt 1)]
      (.argumentError "Unsupported filter property has been recieved: \"bogus\"")).2.2 rfl⟩

/-! ### `setupEnv` and the stub handlers

`setupEnv` wraps a function: it writes the current task/job ids into the
shared `hidden` module, calls the function, and deletes both slots in a
`finally` block.  The mutable `hidden` object is modelled by explicit
state passing; a `delete`d property is `none`.  The wrapped function may
itself read and write `hidden` and may return normally or throw. -/

/-- The `hidden` module's two slots; `none` is a deleted/absent property. -/
structure Hidden where
  taskID : Option Int
  jobID : Option Int
  deriving DecidableEq, Repr

/-- The `this` context a wrapped handler is invoked on: a `Task` instance
(with its `id`), a `Job` instance (with its `id` and its `task.id`), or
anything else. -/
inductive Ctx where
  | task (id : Int)
  | job (id : Int) (taskId : Int)
  | other
  deriving DecidableEq, Repr

/-- A wrapped function body: from the `hidden` state at call time to a
result (or thrown error) and the `hidden` state it leaves behind. -/
abbrev WrappedFn (α : Type) : Type := Hidden → Except CVATError α × Hidden

/-- Result of one invocation of a `setupEnv` wrapper: the value returned
or error thrown, the final `hidden` state, and the `hidden` states at
which the wrapped function was invoked (empty when it was never called). -/
structure CallLog (α : Type) where
  result : Except CVATError α
  finalHidden : Hidden
  fCalls : List Hidden

/-- The `finally` block: `delete hidden.taskID; delete hidden.jobID`. -/
def clearIDs (h : Hidden) : Hidden := { h with taskID := none, jobID := none }

/-- `setupEnv(wrappedFunction)` applied to a context and the current
`hidden` state: an unexpected `this` throws a `ScriptingError` before the
function is called; a `Task` context stores `this.id` in `hidden.taskID`;
a `Job` context stores `this.id` in `hidden.jobID` and `this.task.id` in
`hidden.taskID`; the `finally` block deletes both slots on every path. -/
def setupEnv {α : Type} (f : WrappedFn α) (ctx : Ctx) (h : Hidden) : CallLog α :=
  match ctx with
  | .task id =>
    let h₁ := { h with taskID := some id }
    let r := f h₁
    ⟨r.1, clearIDs r.2, [h₁]⟩
  | .job id taskId =>
    let h₁ := { h with jobID := some id, taskID := some taskId }
    let r := f h₁
    ⟨r.1, clearIDs r.2, [h₁]⟩
  | .other =>
    ⟨.error (.scriptingError "Bad context for the function"), clearIDs h, []⟩

/-- C4: after any invocation of a `setupEnv` wrapper — normal return,
thrown error, or failed context check — both `hidden.taskID` and
`hidden.jobID` have been deleted. -/
theorem setupEnv_clears_hidden {α : Type} (f : WrappedFn α) (ctx : Ctx) (h : Hidden) :
    (setupEnv f ctx h).finalHidden.taskID = none
    ∧ (setupEnv f ctx h).finalHidden.jobID = none := by
  cases ctx <;> exact ⟨rfl, rfl⟩

/-- C5: a `setupEnv` wrapper invoked on a `this` that is neither a `Task`
nor a `Job` raises a `ScriptingError` without ever calling the wrapped
function; on a `Task` it calls it once with `hidden.taskID = this.id`,
and on a `Job` once with `hidden.jobID = this.id` and
`hidden.taskID = this.task.id`. -/
theorem setupEnv_context {α : Type} (f : WrappedFn α) (h : Hidden) (id taskId : Int) :
    ((setupEnv f .other h).result = .error (.scriptingError "Bad context for the function")
      ∧ (setupEnv f .other h).fCalls = [])
    ∧ (setupEnv f (.task id) h).fCalls = [{ h with taskID := some id }]
    ∧ (setupEnv f (.job id taskId) h).fCalls
        = [{ h with jobID := some id, taskID := some taskId }] :=
  ⟨⟨rfl, rfl⟩, rfl, rfl⟩

/-! ### The stub handlers

Everything below `implementAPI`'s getters is a stub wrapped in
`setupEnv`.  The jobAPI and taskAPI handler pairs share identical bodies.
The classes `Statistics`, `ObjectState` and `FrameData` and the object
`window.cvat.config` live in modules of the repository that are not part
of the sources; their constructors are modelled from the spec as
placeholder values ("each simply comments TODO and returns a placeholder
or does nothing").  Note that the stub bodies are arrow functions, so the
`this.taskID` read by `annotations.dump` and `frames.get` is the module
scope's `this`, on which `taskID` is `undefined`. -/

/-- `window.cvat.config`'s `host` and `api` fields. -/
structure Config where
  host : String
  api : String
  deriving DecidableEq, Repr

/-- Values returned by the stub handlers: `undefined` for the do-nothing
stubs and a placeholder for the others. -/
inductive StubResult where
  | undef
  | str (s : String)
  | num (n : Int)
  | nullv
  | statisticsObj
  | objectStateList
  | frameData (taskID : JSValue) (frame : JSValue)
  deriving DecidableEq, Repr

/-- The handlers wrapped in `setupEnv` (one constructor per handler name;
jobAPI and taskAPI use identical bodies for each). -/
inductive StubName where
  | annotationsUpload
  | annotationsSave
  | annotationsClear
  | annotationsDump
  | annotationsStatistics
  | annotationsPut
  | annotationsGet
  | annotationsSearch
  | annotationsSelect
  | framesGet
  | logsPut
  | logsSave
  | actionsUndo
  | actionsRedo
  | actionsClear
  | eventsSubscribe
  | eventsUnsubscribe
  deriving DecidableEq, Repr

/-- The body of each stub handler (before `setupEnv` wrapping), with the
arguments it was invoked with.  `dump` interpolates the module-scope
`this.taskID`, which is `undefined`; `frames.get` passes the same
`undefined` together with its `frame` argument to `new FrameData`. -/
def stubBody (cfg : Config) (n : StubName) (args : List JSValue) : WrappedFn StubResult :=
  fun h =>
    match n with
    | .annotationsDump =>
      (.ok (.str (cfg.host ++ "/api/" ++ cfg.api ++ "/tasks/undefined/annotations/dump")), h)
    | .annotationsStatistics => (.ok .statisticsObj, h)
    | .annotationsGet => (.ok .objectStateList, h)
    | .annotationsSearch => (.ok (.num 0), h)
    | .annotationsSelect => (.ok .nullv, h)
    | .framesGet => (.ok (.frameData .vUndefined (args.headD .vUndefined)), h)
    | _ => (.ok .undef, h)

/-- C8: every stub handler, invoked with a valid `Task` or `Job` context,
completes without error; the do-nothing stubs return `undefined` and the
others return their placeholder (`annotations.search` returns `0`,
`annotations.select` returns `null`). -/
theorem stub_handlers_ok (cfg : Config) (n : StubName) (args : List JSValue)
    (h : Hidden) (id taskId : Int) :
    (∃ v, (setupEnv (stubBody cfg n args) (.task id) h).result = .ok v)
    ∧ (∃ v, (setupEnv (stubBody cfg n args) (.job id taskId) h).result = .ok v)
    ∧ (setupEnv (stubBody cfg .annotationsSearch args) (.task id) h).result = .ok (.num 0)
    ∧ (setupEnv (stubBody cfg .annotationsSelect args) (.task id) h).result = .ok .nullv := by
  refine ⟨?_, ?_, rfl, rfl⟩ <;> cases n <;> exact ⟨_, rfl⟩

end CvatApi
